import Mathlib

/-!
# FinWise — formal model of the auth / expense / advice core

A shallow embedding of the FinWise application's core logic
(`src/app.py`, `src/config.py`): password validation, SHA-256 password
hashing, the users table with register / login / reset operations, the
expense store with the Add-Expense handler, the dashboard aggregation,
and the Gemini advice gateway.  Amounts are modelled as exact rationals,
strings as Lean `String`s (ASCII character classes for the regex).
-/

namespace FinWise

/-! ## Character classes used by `validate_password`

The Python regex is
`^(?=.*[a-z])(?=.*[A-Z])(?=.*\d)(?=.*[@$!%*?&])[A-Za-z\d@$!%*?&]{8,}$`,
run with `re.match` (anchored at the start).  `[a-z]`, `[A-Z]`, `\d`
are modelled as the ASCII classes; the special set is the literal
`@$!%*?&`. -/

def isSpecialChar (c : Char) : Bool :=
  c = '@' || c = '$' || c = '!' || c = '%' || c = '*' || c = '?' || c = '&'

def isAllowedChar (c : Char) : Bool :=
  c.isLower || c.isUpper || c.isDigit || isSpecialChar c

/-- Semantics of a lookahead `(?=.*[p])` evaluated at the start of the
string: `.` matches any character except a newline, so the lookahead
succeeds iff some character satisfying `p` occurs before any newline. -/
def lookaheadAny (p : Char → Bool) : List Char → Bool
  | [] => false
  | c :: rest => p c || (c ≠ '\n' && lookaheadAny p rest)

/-- Semantics of `[A-Za-z\d@$!%*?&]{8,}$` starting after `n` characters
already consumed by the class: either `$` matches here (end of string,
or just before a single trailing newline — Python `$` semantics) with at
least 8 characters consumed, or one more allowed character is consumed. -/
def tailMatch : Nat → List Char → Bool
  | n, [] => 8 ≤ n
  | n, c :: rest => (decide (8 ≤ n) && c = '\n' && rest.isEmpty)
      || (isAllowedChar c && tailMatch (n + 1) rest)

/-- `validate_password` from `src/app.py`: `re.match` of the policy
regex against the password, as a Bool (the code uses the match object's
truthiness). -/
def validate_password (s : String) : Bool :=
  lookaheadAny Char.isLower s.data && lookaheadAny Char.isUpper s.data
    && lookaheadAny Char.isDigit s.data && lookaheadAny isSpecialChar s.data
    && tailMatch 0 s.data

/-! ## SHA-256

`hash_password` in `src/app.py` is
`hashlib.sha256(password.encode()).hexdigest()`: UTF-8-encode the
password, apply SHA-256, render the 256-bit digest as 64 lowercase hex
characters.  The compression function is implemented below over `Nat`
with explicit reduction mod 2^32. -/

def w32 (n : Nat) : Nat := n % 4294967296

def add32 (a b : Nat) : Nat := (a + b) % 4294967296

def rotr (n x : Nat) : Nat := w32 ((x >>> n) ||| (x <<< (32 - n)))

def not32 (x : Nat) : Nat := x ^^^ 4294967295

def shaCh (x y z : Nat) : Nat := (x &&& y) ^^^ (not32 x &&& z)

def shaMaj (x y z : Nat) : Nat := (x &&& y) ^^^ (x &&& z) ^^^ (y &&& z)

def bigSigma0 (x : Nat) : Nat := rotr 2 x ^^^ rotr 13 x ^^^ rotr 22 x

def bigSigma1 (x : Nat) : Nat := rotr 6 x ^^^ rotr 11 x ^^^ rotr 25 x

def smallSigma0 (x : Nat) : Nat := rotr 7 x ^^^ rotr 18 x ^^^ (x >>> 3)

def smallSigma1 (x : Nat) : Nat := rotr 17 x ^^^ rotr 19 x ^^^ (x >>> 10)

/-- Round constants of SHA-256 (in decimal: the 32 fractional-part bits
of the cube roots of the first 64 primes, per FIPS 180-4 §4.2.2). -/
def shaK : List Nat :=
  [1116352408, 1899447441, 3049323471, 3921009573, 961987163, 1508970993,
   2453635748, 2870763221, 3624381080, 310598401, 607225278, 1426881987,
   1925078388, 2162078206, 2614888103, 3248222580, 3835390401, 4022224774,
   264347078, 604807628, 770255983, 1249150122, 1555081692, 1996064986,
   2554220882, 2821834349, 2952996808, 3210313671, 3336571891, 3584528711,
   113926993, 338241895, 666307205, 773529912, 1294757372, 1396182291,
   1695183700, 1986661051, 2177026350, 2456956037, 2730485921, 2820302411,
   3259730800, 3345764771, 3516065817, 3600352804, 4094571909, 275423344,
   430227734, 506948616, 659060556, 883997877, 958139571, 1322822218,
   1537002063, 1747873779, 1955562222, 2024104815, 2227730452, 2361852424,
   2428436474, 2756734187, 3204031479, 3329325298]

/-- Starting chaining state of SHA-256 (in decimal: the 32
fractional-part bits of the square roots of the first 8 primes, per
FIPS 180-4 §5.3.3). -/
def shaH0 : List Nat :=
  [1779033703, 3144134277, 1013904242, 2773480762,
   1359893119, 2600822924, 528734635, 1541459225]

/-- Extend the 16 message-schedule words to 64, keeping the schedule in
reverse order (most recent word first); `fuel` counts the words still to
produce. -/
def shaSchedule : Nat → List Nat → List Nat
  | 0, ws => ws
  | fuel + 1, ws =>
    let g (i : Nat) : Nat := (ws.drop i).headD 0
    let next := add32 (add32 (smallSigma1 (g 1)) (g 6))
                      (add32 (smallSigma0 (g 14)) (g 15))
    shaSchedule fuel (next :: ws)

/-- One round of the SHA-256 compression function on the eight-word
working state, consuming one (Wₜ, Kₜ) pair. -/
def shaRound (st : List Nat) (wk : Nat × Nat) : List Nat :=
  match st with
  | [a, b, c, d, e, f, g, h] =>
    let t1 := add32 (add32 (add32 h (bigSigma1 e)) (add32 (shaCh e f g) wk.2)) wk.1
    let t2 := add32 (bigSigma0 a) (shaMaj a b c)
    [add32 t1 t2, a, b, c, add32 d t1, e, f, g]
  | other => other

/-- Process one 64-byte block: build the message schedule, run 64
rounds, add the result back into the chaining state. -/
def shaBlock (h : List Nat) (block : List Nat) : List Nat :=
  let ws16 := (List.range 16).map fun i =>
    ((((block.drop (4 * i)).headD 0) * 256 + ((block.drop (4 * i + 1)).headD 0)) * 256
        + ((block.drop (4 * i + 2)).headD 0)) * 256 + ((block.drop (4 * i + 3)).headD 0)
  let ws := (shaSchedule 48 ws16.reverse).reverse
  let final := (ws.zip shaK).foldl shaRound h
  (h.zip final).map fun p => add32 p.1 p.2

/-- Big-endian byte rendering of `n` in `len` bytes. -/
def toBytesBE : Nat → Nat → List Nat
  | 0, _ => []
  | len + 1, n => toBytesBE len (n / 256) ++ [n % 256]

/-- SHA-256 padding: append `0x80`, zero bytes to reach 56 mod 64, then
the original bit length in 8 big-endian bytes. -/
def shaPad (msg : List Nat) : List Nat :=
  msg ++ [0x80] ++ List.replicate ((119 - msg.length % 64) % 64) 0
      ++ toBytesBE 8 (msg.length * 8)

/-- Split into 64-byte blocks (`fuel` bounds the recursion). -/
def shaChunks : Nat → List Nat → List (List Nat)
  | 0, _ => []
  | fuel + 1, l => if l.isEmpty then [] else l.take 64 :: shaChunks fuel (l.drop 64)

/-- SHA-256 of a byte sequence: eight 32-bit words. -/
def sha256Words (msg : List Nat) : List Nat :=
  let padded := shaPad msg
  (shaChunks (padded.length) padded).foldl shaBlock shaH0

def hexDigit (n : Nat) : Char :=
  if n < 10 then Char.ofNat (48 + n) else Char.ofNat (87 + n)

/-- Lowercase hex rendering of one 32-bit word in 8 characters. -/
def hexWord (x : Nat) : List Char :=
  (List.range 8).map fun i => hexDigit ((x >>> (28 - 4 * i)) &&& 15)

/-- UTF-8 encoding of one character (what Python `str.encode()` does). -/
def utf8Bytes (c : Char) : List Nat :=
  let n := c.toNat
  if n < 0x80 then [n]
  else if n < 0x800 then
    [0xC0 ||| (n >>> 6), 0x80 ||| (n &&& 0x3F)]
  else if n < 0x10000 then
    [0xE0 ||| (n >>> 12), 0x80 ||| ((n >>> 6) &&& 0x3F), 0x80 ||| (n &&& 0x3F)]
  else
    [0xF0 ||| (n >>> 18), 0x80 ||| ((n >>> 12) &&& 0x3F),
     0x80 ||| ((n >>> 6) &&& 0x3F), 0x80 ||| (n &&& 0x3F)]

/-- `hash_password` from `src/app.py`:
`hashlib.sha256(password.encode()).hexdigest()`. -/
def hash_password (password : String) : String :=
  ⟨(sha256Words (password.data.flatMap utf8Bytes)).flatMap hexWord⟩

/-! ## Credential store and auth operations

The `users` table is `users(id INTEGER PRIMARY KEY AUTOINCREMENT,
username TEXT UNIQUE, email TEXT UNIQUE NOT NULL, password TEXT NOT
NULL)`.  A row insertion violating either UNIQUE constraint raises
`sqlite3.IntegrityError`. -/

structure UserRow where
  id : Nat
  username : String
  email : String
  password : String
deriving DecidableEq, Repr

structure UsersTable where
  rows : List UserRow
  nextId : Nat
deriving DecidableEq, Repr

def emptyUsers : UsersTable := ⟨[], 1⟩

/-- The three values `register_user` can return in `src/app.py`:
`"invalid"` (weak password), `True` (row inserted), `False`
(`sqlite3.IntegrityError`, duplicate username or email). -/
inductive RegisterResult where
  | invalid
  | ok
  | duplicate
deriving DecidableEq, Repr

/-- `register_user` from `src/app.py`: validate the password, then
`INSERT INTO users (username, email, password)`; a UNIQUE violation on
username or email yields the `False` branch and nothing is written. -/
def register_user (db : UsersTable) (username email password : String) :
    RegisterResult × UsersTable :=
  if ¬ validate_password password then (.invalid, db)
  else if db.rows.any (fun r => r.username == username || r.email == email) then
    (.duplicate, db)
  else
    (.ok, ⟨db.rows ++ [⟨db.nextId, username, email, hash_password password⟩],
           db.nextId + 1⟩)

/-- `login_user` from `src/app.py`:
`SELECT * FROM users WHERE email=? AND password=?` with the hash of the
supplied password, then `fetchone()`. -/
def login_user (db : UsersTable) (email password : String) : Option UserRow :=
  db.rows.find? fun r => r.email == email && r.password == hash_password password

/-- The two values `reset_password` can return in `src/app.py`:
`"invalid"` (weak password) or `True`.  The `UPDATE` path returns `True`
whether or not any row matched the email. -/
inductive ResetResult where
  | invalid
  | ok
deriving DecidableEq, Repr

/-- `reset_password` from `src/app.py`: validate the new password, then
`UPDATE users SET password=? WHERE email=?` and return `True`
unconditionally. -/
def reset_password (db : UsersTable) (email newPassword : String) :
    ResetResult × UsersTable :=
  if ¬ validate_password newPassword then (.invalid, db)
  else
    (.ok, ⟨db.rows.map fun r =>
             if r.email == email then { r with password := hash_password newPassword }
             else r,
           db.nextId⟩)

/-! ## Session state and the logout handler

Streamlit session state holds `logged_in`, `username`, `email`, `page`.
The logout button handler sets `logged_in = False` and
`username = None`; it does not touch `email`. -/

structure SessionState where
  logged_in : Bool
  username : Option String
  email : Option String
  page : String
deriving DecidableEq, Repr

/-- The logout button handler from `src/app.py` (lines 153–156). -/
def logoutHandler (s : SessionState) : SessionState :=
  { s with logged_in := false, username := none }

/-! ## Expense store

`expenses(id INTEGER PRIMARY KEY AUTOINCREMENT, user_id, date, category,
amount REAL NOT NULL, description)`.  The Add-Expense handler inserts
`st.session_state.username` into the `user_id` column, so the owner
field is modelled as the string actually stored there.  Dates are
modelled structurally (the code stores `str(date)` in ISO form and
re-parses it with `pd.to_datetime`); amounts as exact rationals. -/

structure ExpDate where
  year : Nat
  month : Nat
  day : Nat
deriving DecidableEq, Repr

structure ExpenseRow where
  id : Nat
  user_id : String
  date : ExpDate
  category : String
  amount : ℚ
  description : String
deriving DecidableEq, Repr

/-! ### Python `str.strip` / `str.split` (no arguments)

Used on the categorization response:
`get_gemini_response(prompt).strip().split()[0]`.  `split()` splits on
runs of whitespace and never yields empty tokens, so on an empty or
all-whitespace string it returns `[]` and the `[0]` raises
`IndexError`. -/

def pyIsSpace (c : Char) : Bool :=
  c = ' ' || c = '\t' || c = '\n' || c = '\r' || c = '\x0b' || c = '\x0c'

def pyStrip (cs : List Char) : List Char :=
  (cs.dropWhile pyIsSpace).rdropWhile pyIsSpace

/-- `str.split()` with no separator: whitespace runs delimit tokens,
empty tokens are dropped.  `cur` accumulates the current token in
reverse. -/
def pySplitAux : List Char → List Char → List (List Char)
  | [], cur => if cur.isEmpty then [] else [cur.reverse]
  | c :: rest, cur =>
    if pyIsSpace c then
      if cur.isEmpty then pySplitAux rest [] else cur.reverse :: pySplitAux rest []
    else pySplitAux rest (c :: cur)

def pySplit (cs : List Char) : List (List Char) := pySplitAux cs []

/-- The categorization step of the Add-Expense handler:
`resp.strip().split()[0]`.  `none` models the `IndexError` raised when
the stripped response has no token. -/
def firstToken (resp : String) : Option String :=
  (pySplit (pyStrip resp.data)).head?.map fun cs => ⟨cs⟩

/-- The Add-Expense form handler from `src/app.py` (lines 188–198):
derive the category from the gateway response `resp`, then
`INSERT INTO expenses (user_id, date, category, amount, description)`
with `st.session_state.username` as `user_id`.  `none` models the
uncaught `IndexError` from the categorization step. -/
def addExpenseHandler (resp : String) (sessionUsername : String) (date : ExpDate)
    (amount : ℚ) (description : String) (expenses : List ExpenseRow)
    (nextId : Nat) : Option (List ExpenseRow × Nat) :=
  match firstToken resp with
  | none => none
  | some category =>
    some (expenses ++ [⟨nextId, sessionUsername, date, category, amount, description⟩],
          nextId + 1)

/-! ## Dashboard aggregation

`df.groupby("category")["amount"].sum()` and
`df.groupby(df.date.dt.to_period("M"))["amount"].sum()`: pandas groups
rows by key, sums each group, and lists the groups by ascending key. -/

def monthKey (e : ExpenseRow) : Nat × Nat := (e.date.year, e.date.month)

/-- Chronological order on (year, month) keys. -/
def monthLE (a b : Nat × Nat) : Prop :=
  a.1 < b.1 ∨ (a.1 = b.1 ∧ a.2 ≤ b.2)

instance : DecidableRel monthLE := fun a b => by
  unfold monthLE; exact inferInstance

/-- Monthly-trend aggregation from the Dashboard view (lines 222–224):
the distinct (year, month) keys in ascending order, each with the sum of
the amounts of the expenses in that month. -/
def monthlyTrend (es : List ExpenseRow) : List ((Nat × Nat) × ℚ) :=
  (List.insertionSort monthLE (es.map monthKey).dedup).map fun k =>
    (k, ((es.filter fun e => monthKey e = k).map ExpenseRow.amount).sum)

/-- Category aggregation from the Dashboard view (line 215): the
distinct category labels in ascending order, each with the sum of the
amounts of the expenses in that category. -/
def categoryTotals (es : List ExpenseRow) : List (String × ℚ) :=
  (List.insertionSort (· ≤ ·) (es.map ExpenseRow.category).dedup).map fun k =>
    (k, ((es.filter fun e => e.category = k).map ExpenseRow.amount).sum)

/-- What the Dashboard view renders: the explicit no-data warning when
the query returns no rows, otherwise the table plus the two aggregations
and the grand total. -/
inductive DashboardView where
  | noData
  | report (byCategory : List (String × ℚ)) (byMonth : List ((Nat × Nat) × ℚ))
      (total : ℚ)
deriving DecidableEq, Repr

/-- The Dashboard flow from `src/app.py` (lines 204–233): `if df.empty:`
show the no-data warning, `else` build the aggregations. -/
def dashboard (es : List ExpenseRow) : DashboardView :=
  if es.isEmpty then .noData
  else .report (categoryTotals es) (monthlyTrend es) (es.map ExpenseRow.amount).sum

/-! ## Advice gateway

`get_gemini_response` in `src/config.py` wraps the external generative
call in `try/except`: any exception yields `f"Error: {e}"`.  The
external call is modelled as a function returning `Except` (an
exception's message, or a response object); a successful response
carries an optional `text` attribute and a `str()` rendering
(`getattr(resp, "text", str(resp))`). -/

structure GenResponse where
  text : Option String
  asString : String

/-- `get_gemini_response` from `src/config.py`, parametrised by the
external call `ext` (covering `get_model()` and
`model.generate_content(prompt)`). -/
def get_gemini_response (ext : String → Except String GenResponse)
    (prompt : String) : String :=
  match ext prompt with
  | .ok resp => resp.text.getD resp.asString
  | .error e => "Error: " ++ e

/-! # Theorems

Kernel evaluation of a SHA-256 digest needs a deeper recursion stack
than the default. -/

set_option maxRecDepth 40000

/-! ## C1 — the password policy -/

theorem isAllowedChar_ne_newline {c : Char} (h : isAllowedChar c = true) :
    c ≠ '\n' := by
  intro heq
  subst heq
  exact absurd h (by decide)

theorem lookaheadAny_append (p : Char → Bool) (body t : List Char)
    (h : ∀ c ∈ body, c ≠ '\n') :
    lookaheadAny p (body ++ t) = (body.any p || lookaheadAny p t) := by
  induction body with
  | nil => simp [lookaheadAny]
  | cons c rest ih =>
    have hc : c ≠ '\n' := h c (by simp)
    have ih' := ih fun x hx => h x (by simp [hx])
    simp [lookaheadAny, ih', hc, Bool.or_assoc]

/-- On a string that is a newline-free body followed by at most one
trailing newline, each lookahead reduces to an existence check over the
body. -/
theorem lookaheadAny_eq_any (p : Char → Bool) (body t : List Char)
    (h : ∀ c ∈ body, c ≠ '\n') (hp : p '\n' = false)
    (ht : t = [] ∨ t = ['\n']) :
    lookaheadAny p (body ++ t) = body.any p := by
  rcases ht with rfl | rfl
  · simpa [lookaheadAny] using lookaheadAny_append p body [] h
  · simpa [lookaheadAny, hp] using lookaheadAny_append p body ['\n'] h

/-- The `[A-Za-z\d@$!%*?&]{8,}$` part of the regex matches the rest of
the string iff the string is a block of allowed characters — long
enough together with the `n` characters already consumed — followed by
at most one trailing newline. -/
theorem tailMatch_iff (cs : List Char) : ∀ n : Nat,
    tailMatch n cs = true ↔
      ∃ body, (cs = body ∨ cs = body ++ ['\n']) ∧
        (∀ c ∈ body, isAllowedChar c = true) ∧ 8 ≤ n + body.length := by
  induction cs with
  | nil =>
    intro n
    simp only [tailMatch, decide_eq_true_eq]
    constructor
    · intro hn
      exact ⟨[], Or.inl rfl, by simp, by simpa using hn⟩
    · rintro ⟨body, hcs, -, hlen⟩
      rcases hcs with hb | hb
      · obtain rfl : body = [] := hb.symm
        simpa using hlen
      · exact absurd hb.symm (by simp)
  | cons c rest ih =>
    intro n
    simp only [tailMatch, Bool.or_eq_true, Bool.and_eq_true, decide_eq_true_eq,
      List.isEmpty_iff]
    constructor
    · rintro (⟨⟨hn, hc⟩, hrest⟩ | ⟨hc, ht⟩)
      · exact ⟨[], Or.inr (by simp [hc, hrest]), by simp, by simpa using hn⟩
      · obtain ⟨body, hcs, hall, hlen⟩ := (ih (n + 1)).1 ht
        refine ⟨c :: body, ?_, ?_, by simp; omega⟩
        · rcases hcs with rfl | rfl
          · exact Or.inl rfl
          · exact Or.inr rfl
        · intro x hx
          rcases List.mem_cons.1 hx with rfl | hx'
          · exact hc
          · exact hall x hx'
    · rintro ⟨body, hcs, hall, hlen⟩
      rcases body with - | ⟨b, body2⟩
      · rcases hcs with hb | hb
        · exact absurd hb (by simp)
        · obtain ⟨rfl, rfl⟩ : c = '\n' ∧ rest = [] := by simpa using hb
          exact Or.inl ⟨⟨by simpa using hlen, rfl⟩, rfl⟩
      · rcases hcs with hb | hb
        · obtain ⟨rfl, rfl⟩ : c = b ∧ rest = body2 := by simpa using hb
          refine Or.inr ⟨hall c (by simp), ?_⟩
          refine (ih (n + 1)).2 ⟨rest, Or.inl rfl, fun x hx => hall x (by simp [hx]), ?_⟩
          simp at hlen ⊢
          omega
        · obtain ⟨rfl, rfl⟩ : c = b ∧ rest = body2 ++ ['\n'] := by simpa using hb
          refine Or.inr ⟨hall c (by simp), ?_⟩
          refine (ih (n + 1)).2 ⟨body2, Or.inr rfl, fun x hx => hall x (by simp [hx]), ?_⟩
          simp at hlen ⊢
          omega

/-- C1 (amended): `validate_password` accepts a string iff, after
discarding at most one trailing newline (which Python's `$` permits),
the remaining body has at least 8 characters, every one of them from the
allowed alphabet, and contains at least one lowercase letter, one
uppercase letter, one digit and one special character.  In particular an
accepted password may end in a single newline, which is outside the
allowed alphabet — the rest of the frozen claim holds as stated. -/
theorem validate_password_iff (s : String) :
    validate_password s = true ↔
      ∃ body : List Char, (s.data = body ∨ s.data = body ++ ['\n']) ∧
        8 ≤ body.length ∧ (∀ c ∈ body, isAllowedChar c = true) ∧
        (∃ c ∈ body, c.isLower = true) ∧ (∃ c ∈ body, c.isUpper = true) ∧
        (∃ c ∈ body, c.isDigit = true) ∧ (∃ c ∈ body, isSpecialChar c = true) := by
  unfold validate_password
  simp only [Bool.and_eq_true]
  constructor
  · rintro ⟨⟨⟨⟨h1, h2⟩, h3⟩, h4⟩, ht⟩
    obtain ⟨body, hcs, hall, hlen⟩ := (tailMatch_iff s.data 0).1 ht
    have hnl : ∀ c ∈ body, c ≠ '\n' := fun c hc => isAllowedChar_ne_newline (hall c hc)
    have hsplit : ∃ t, s.data = body ++ t ∧ (t = [] ∨ t = ['\n']) := by
      rcases hcs with h | h
      · exact ⟨[], by simpa using h, Or.inl rfl⟩
      · exact ⟨['\n'], h, Or.inr rfl⟩
    obtain ⟨t, hst, htt⟩ := hsplit
    rw [hst] at h1 h2 h3 h4
    rw [lookaheadAny_eq_any _ _ _ hnl (by decide) htt] at h1 h2 h3 h4
    exact ⟨body, hcs, by simpa using hlen, hall, List.any_eq_true.1 h1,
      List.any_eq_true.1 h2, List.any_eq_true.1 h3, List.any_eq_true.1 h4⟩
  · rintro ⟨body, hcs, hlen, hall, e1, e2, e3, e4⟩
    have hnl : ∀ c ∈ body, c ≠ '\n' := fun c hc => isAllowedChar_ne_newline (hall c hc)
    have hsplit : ∃ t, s.data = body ++ t ∧ (t = [] ∨ t = ['\n']) := by
      rcases hcs with h | h
      · exact ⟨[], by simpa using h, Or.inl rfl⟩
      · exact ⟨['\n'], h, Or.inr rfl⟩
    obtain ⟨t, hst, htt⟩ := hsplit
    rw [hst]
    rw [lookaheadAny_eq_any _ _ _ hnl (by decide) htt,
      lookaheadAny_eq_any _ _ _ hnl (by decide) htt,
      lookaheadAny_eq_any _ _ _ hnl (by decide) htt,
      lookaheadAny_eq_any _ _ _ hnl (by decide) htt]
    refine ⟨⟨⟨⟨List.any_eq_true.2 e1, List.any_eq_true.2 e2⟩, List.any_eq_true.2 e3⟩,
      List.any_eq_true.2 e4⟩, ?_⟩
    refine (tailMatch_iff (body ++ t) 0).2 ⟨body, ?_, hall, by simpa using hlen⟩
    rcases htt with rfl | rfl
    · exact Or.inl (by simp)
    · exact Or.inr rfl

/-- C1 counterexample: the password `"Aa1@bcde\n"` is accepted by
`validate_password`, yet its newline character is not in the allowed
alphabet — refuting the frozen claim that every character of an
accepted password belongs to the allowed alphabet. -/
theorem validate_password_alphabet_cex :
    validate_password "Aa1@bcde\n" = true ∧ '\n' ∈ "Aa1@bcde\n".data ∧
      isAllowedChar '\n' = false := by decide

/-! ## C2 — register then login -/

theorem find?_eq_none_of_forall {α : Type} (p : α → Bool) (l : List α)
    (h : ∀ x ∈ l, p x = false) : l.find? p = none :=
  List.find?_eq_none.2 fun x hx => by simp [h x hx]

/-- C2: hashing is deterministic, and after a successful registration a
login with the registered email and the original password returns
exactly the stored record, while a login with the same email and any
password whose digest differs returns the invalid-credentials result
(`fetchone` finds no row). -/
theorem register_login_roundtrip (db : UsersTable) (u e pw : String)
    (h : (register_user db u e pw).1 = RegisterResult.ok) :
    (∀ p q : String, p = q → hash_password p = hash_password q) ∧
    login_user (register_user db u e pw).2 e pw
      = some ⟨db.nextId, u, e, hash_password pw⟩ ∧
    ∀ pw' : String, hash_password pw' ≠ hash_password pw →
      login_user (register_user db u e pw).2 e pw' = none := by
  refine ⟨fun p q hpq => hpq ▸ rfl, ?_⟩
  by_cases hv : validate_password pw = true
  · by_cases hd : (db.rows.any fun r => r.username == u || r.email == e) = true
    · exfalso
      rw [register_user] at h
      simp [hv, hd] at h
    · have hd' : (db.rows.any fun r => r.username == u || r.email == e) = false := by
        simpa using hd
      have hrows : ∀ r ∈ db.rows, (r.email == e) = false := by
        intro r hr
        have := List.any_eq_false.1 hd' r hr
        simp only [Bool.or_eq_true, not_or] at this
        simpa using this.2
      have hreg : register_user db u e pw
          = (.ok, ⟨db.rows ++ [⟨db.nextId, u, e, hash_password pw⟩], db.nextId + 1⟩) := by
        rw [register_user]
        simp [hv, hd']
      rw [hreg]
      constructor
      · rw [login_user, List.find?_append,
          find?_eq_none_of_forall _ _ fun r hr => by simp [hrows r hr]]
        simp [List.find?]
      · intro pw' hne
        rw [login_user, List.find?_append,
          find?_eq_none_of_forall _ _ fun r hr => by simp [hrows r hr]]
        have hb : (hash_password pw == hash_password pw') = false := by
          simpa using Ne.symm hne
        simp [List.find?, hb]
  · exfalso
    rw [register_user] at h
    simp [hv] at h

/-- C2 witness: registering alice with `Aa1@bcde` on an empty store,
login with the same password returns her row and login with `Aa1@bcdf`
fails. -/
theorem register_login_roundtrip_witness :
    login_user (register_user emptyUsers "alice" "a@x.com" "Aa1@bcde").2
        "a@x.com" "Aa1@bcde"
      = some ⟨1, "alice", "a@x.com", hash_password "Aa1@bcde"⟩ ∧
    login_user (register_user emptyUsers "alice" "a@x.com" "Aa1@bcde").2
        "a@x.com" "Aa1@bcdf" = none := by
  have h := register_login_roundtrip emptyUsers "alice" "a@x.com" "Aa1@bcde" (by decide)
  exact ⟨h.2.1, h.2.2 "Aa1@bcdf" (by decide)⟩

/-! ## C3 — duplicate registration -/

/-- Demo store holding the single user alice. -/
def aliceDb : UsersTable := ⟨[⟨1, "alice", "a@x.com", "h"⟩], 2⟩

/-- C3 counterexample: the store contains a user named alice, yet a
registration attempt reusing that username with a policy-rejected
password reports the weak-password result `"invalid"`, not the
duplicate conflict the frozen claim predicts for every reusing
attempt. -/
theorem register_duplicate_weak_cex :
    (∃ r ∈ aliceDb.rows, r.username = "alice") ∧
    (register_user aliceDb "alice" "b@x.com" "weak").1 = RegisterResult.invalid ∧
    RegisterResult.invalid ≠ RegisterResult.duplicate := by decide

/-- C3 (amended): if the store already holds a user with the given
username or email, a registration attempt reusing it with a
policy-accepted password reports the duplicate conflict, a
policy-rejected password reports the weak-password result, and in both
cases the store is returned unchanged — no second row, no partial
write. -/
theorem register_duplicate_conflict (db : UsersTable) (u e pw : String)
    (hdup : ∃ r ∈ db.rows, r.username = u ∨ r.email = e) :
    (validate_password pw = true → register_user db u e pw = (.duplicate, db)) ∧
    (validate_password pw = false → register_user db u e pw = (.invalid, db)) := by
  obtain ⟨r, hr, hre⟩ := hdup
  have hany : (db.rows.any fun r => r.username == u || r.email == e) = true :=
    List.any_eq_true.2 ⟨r, hr, by rcases hre with h | h <;> simp [h]⟩
  constructor
  · intro hv
    rw [register_user]
    simp [hv, hany]
  · intro hv
    rw [register_user]
    simp [hv]

/-- C3 witness: reusing alice's username with a valid password on the
demo store reports the conflict and leaves the store unchanged. -/
theorem register_duplicate_conflict_witness :
    register_user aliceDb "alice" "b@x.com" "Aa1@bcde"
      = (RegisterResult.duplicate, aliceDb) :=
  (register_duplicate_conflict aliceDb "alice" "b@x.com" "Aa1@bcde"
    (by decide)).1 (by decide)

/-! ## C4 — reset with an unknown email -/

/-- C4: `reset_password` with an email that matches no stored user
still reports success (`True`) and leaves the store unchanged — the
UI's "Email not found" branch is unreachable — while with a matching
email it does replace the stored hash and reports success. -/
theorem reset_password_notfound_bug :
    reset_password emptyUsers "ghost@x.com" "Aa1@bcde" = (.ok, emptyUsers) ∧
    reset_password aliceDb "a@x.com" "Aa1@bcde"
      = (.ok, ⟨[⟨1, "alice", "a@x.com", hash_password "Aa1@bcde"⟩], 2⟩) := by
  constructor
  · decide
  · decide

/-! ## C5 — gateway failures become error strings -/

/-- C5: whenever the external generative call fails with message `e`,
`get_gemini_response` returns the string `"Error: " ++ e` — a total
function, so no exception reaches the caller — and that string carries
the fixed `"Error: "` prefix. -/
theorem gemini_failure_error_marked (ext : String → Except String GenResponse)
    (prompt e : String) (h : ext prompt = .error e) :
    get_gemini_response ext prompt = "Error: " ++ e ∧
    ("Error: ".data).isPrefixOf (get_gemini_response ext prompt).data = true := by
  have hval : get_gemini_response ext prompt = "Error: " ++ e := by
    rw [get_gemini_response, h]
  refine ⟨hval, ?_⟩
  rw [hval]
  refine List.isPrefixOf_iff_prefix.2 ?_
  rw [String.data_append]
  exact List.prefix_append _ _

/-- A stub external function that always fails. -/
def extFail : String → Except String GenResponse := fun _ => .error "quota exceeded"

/-- C5 witness: with the always-failing stub, `get_gemini_response`
returns the error-marked string rather than raising. -/
theorem gemini_failure_error_marked_witness :
    get_gemini_response extFail "advise me" = "Error: quota exceeded" ∧
    ("Error: ".data).isPrefixOf (get_gemini_response extFail "advise me").data
      = true :=
  gemini_failure_error_marked extFail "advise me" "quota exceeded" rfl

/-! ## C8 — what the Add-Expense insert stores as the owner -/

/-- C8: for every session username, the Add-Expense insert stores the
session username string itself in the `user_id` column of the new
expense row — not the numeric `users.id` key the schema's foreign key
references.  Instantiated at the categorizer response `"Transport"`. -/
theorem addExpense_stores_username (username : String) (d : ExpDate) (amount : ℚ)
    (descr : String) (expenses : List ExpenseRow) (nextId : Nat) :
    addExpenseHandler "Transport" username d amount descr expenses nextId
      = some (expenses ++ [⟨nextId, username, d, "Transport", amount, descr⟩],
              nextId + 1) := rfl

/-! ## C9 — logout -/

/-- A logged-in session for alice. -/
def c9Session : SessionState := ⟨true, some "alice", some "a@x.com", "🏠 Home"⟩

/-- C9 counterexample: logging out of alice's session leaves the stored
email set to her address — the identity is not fully cleared, refuting
the frozen claim that after logout both username and email are
empty. -/
theorem logout_email_cex :
    c9Session.logged_in = true ∧
    (logoutHandler c9Session).email = some "a@x.com" ∧
    (logoutHandler c9Session).email ≠ none := by decide

/-- C9 (amended): from any logged-in session, logout sets `logged_in`
to false and clears the stored username, but leaves the stored email
unchanged. -/
theorem logout_spec (s : SessionState) (_h : s.logged_in = true) :
    (logoutHandler s).logged_in = false ∧ (logoutHandler s).username = none ∧
    (logoutHandler s).email = s.email :=
  ⟨rfl, rfl, rfl⟩

/-- C9 witness: the amended logout behaviour on alice's session. -/
theorem logout_spec_witness :
    (logoutHandler c9Session).logged_in = false ∧
    (logoutHandler c9Session).username = none ∧
    (logoutHandler c9Session).email = c9Session.email :=
  logout_spec c9Session rfl

/-! ## C10 — categorization takes the first token and can raise -/

theorem pyStrip_head_not_space (cs : List Char) (h0 : Char) (t0 : List Char)
    (hs : pyStrip cs = h0 :: t0) : pyIsSpace h0 = false := by
  have hpre : pyStrip cs <+: cs.dropWhile pyIsSpace :=
    List.rdropWhile_prefix _ _
  rw [hs] at hpre
  obtain ⟨t2, ht2⟩ := hpre
  have hdne : cs.dropWhile pyIsSpace ≠ [] := by
    rw [← ht2]
    simp
  have hh := List.head_dropWhile_not pyIsSpace cs hdne
  have h1 : some ((cs.dropWhile pyIsSpace).head hdne) = some h0 := by
    rw [← List.head?_eq_head hdne, ← ht2]
    rfl
  rw [Option.some.inj h1] at hh
  exact hh

theorem dropWhile_pyStrip (cs : List Char) :
    (pyStrip cs).dropWhile pyIsSpace = pyStrip cs := by
  rcases hs : pyStrip cs with - | ⟨h0, t0⟩
  · rfl
  · rw [List.dropWhile_cons, pyStrip_head_not_space cs h0 t0 hs]
    simp

theorem pySplitAux_head (rest : List Char) : ∀ cur : List Char, cur ≠ [] →
    (pySplitAux rest cur).head?
      = some (cur.reverse ++ rest.takeWhile fun c => !pyIsSpace c) := by
  induction rest with
  | nil =>
    intro cur hcur
    rw [pySplitAux]
    simp [List.isEmpty_iff, hcur]
  | cons c rest ih =>
    intro cur hcur
    rw [pySplitAux]
    by_cases hc : pyIsSpace c = true
    · simp [hc, List.isEmpty_iff, hcur, List.takeWhile_cons]
    · have hc' : pyIsSpace c = false := by simpa using hc
      rw [if_neg (by simp [hc'])]
      rw [ih (c :: cur) (by simp)]
      simp [List.takeWhile_cons, hc']

theorem pySplit_head (cs : List Char) (h : cs.dropWhile pyIsSpace ≠ []) :
    (pySplit cs).head?
      = some ((cs.dropWhile pyIsSpace).takeWhile fun c => !pyIsSpace c) := by
  induction cs with
  | nil => simp at h
  | cons c rest ih =>
    by_cases hc : pyIsSpace c = true
    · have hd : (c :: rest).dropWhile pyIsSpace = rest.dropWhile pyIsSpace := by
        simp [List.dropWhile_cons, hc]
      rw [hd] at h ⊢
      rw [pySplit, pySplitAux]
      simp only [hc, if_true, List.isEmpty_nil, if_true]
      exact ih h
    · have hc' : pyIsSpace c = false := by simpa using hc
      rw [pySplit, pySplitAux]
      rw [if_neg (by simp [hc'])]
      rw [pySplitAux_head rest [c] (by simp)]
      simp [List.dropWhile_cons, hc', List.takeWhile_cons]

theorem firstToken_eq (resp : String) (h : pyStrip resp.data ≠ []) :
    firstToken resp
      = some ⟨(pyStrip resp.data).takeWhile fun c => !pyIsSpace c⟩ := by
  have h2 := dropWhile_pyStrip resp.data
  rw [firstToken, pySplit_head (pyStrip resp.data) (by rw [h2]; exact h)]
  rw [h2]
  rfl

/-- C10 (amended): whenever the gateway response still contains a
non-whitespace character after trimming, the call site derives the
category label as the first whitespace-delimited token of the trimmed
response and the Add-Expense interaction completes; on an empty or
whitespace-only response, however, `.strip().split()[0]` raises
`IndexError` (the `none` case exhibited by the counterexample). -/
theorem categorize_first_token (resp : String) (h : pyStrip resp.data ≠ []) :
    firstToken resp
      = some ⟨(pyStrip resp.data).takeWhile fun c => !pyIsSpace c⟩ ∧
    ∀ (username : String) (d : ExpDate) (amount : ℚ) (descr : String)
      (expenses : List ExpenseRow) (nextId : Nat),
      addExpenseHandler resp username d amount descr expenses nextId ≠ none := by
  refine ⟨firstToken_eq resp h, ?_⟩
  intro username d amount descr expenses nextId
  rw [addExpenseHandler, firstToken_eq resp h]
  simp

/-- C10 counterexample: on an empty (or all-whitespace) gateway
response, the categorization step produces no token — Python's
`.strip().split()` is `[]`, so the `[0]` indexing raises `IndexError`
and the Add-Expense interaction crashes, refuting the frozen claim that
the step never raises. -/
theorem categorize_empty_cex :
    firstToken "" = none ∧ firstToken " \n " = none ∧
    addExpenseHandler "" "alice" ⟨2024, 1, 5⟩ 250 "Uber ride" [] 1 = none := by
  decide

/-- C10 witness: a response with leading whitespace yields its first
token as the category and the interaction completes. -/
theorem categorize_first_token_witness :
    firstToken "  Transport costs" = some "Transport" ∧
    addExpenseHandler "  Transport costs" "alice" ⟨2024, 1, 5⟩ 250 "Uber" [] 1
      ≠ none := by
  have h := categorize_first_token "  Transport costs" (by decide)
  exact ⟨by rw [h.1]; decide, h.2 "alice" ⟨2024, 1, 5⟩ 250 "Uber" [] 1⟩

/-! ## C6 — monthly aggregation -/

instance : IsTotal (Nat × Nat) monthLE :=
  ⟨fun a b => by unfold monthLE; omega⟩

instance : IsTrans (Nat × Nat) monthLE :=
  ⟨fun a b c hab hbc => by unfold monthLE at *; omega⟩

/-- C6: for every non-empty expense list the monthly trend is
non-empty, its rows are in strictly ascending chronological order of
(year, month), its keys are exactly the (year, month) values occurring
among the expenses, and each row's value is the sum of the amounts of
the expenses falling in that month. -/
theorem monthlyTrend_spec (es : List ExpenseRow) (h : es ≠ []) :
    monthlyTrend es ≠ [] ∧
    List.Pairwise (fun a b : (Nat × Nat) × ℚ =>
      a.1.1 < b.1.1 ∨ (a.1.1 = b.1.1 ∧ a.1.2 < b.1.2)) (monthlyTrend es) ∧
    (∀ k : Nat × Nat, k ∈ (monthlyTrend es).map Prod.fst ↔ k ∈ es.map monthKey) ∧
    ∀ p ∈ monthlyTrend es,
      p.2 = ((es.filter fun e => monthKey e = p.1).map ExpenseRow.amount).sum := by
  have hperm := List.perm_insertionSort monthLE (es.map monthKey).dedup
  have hsorted : List.Pairwise monthLE
      (List.insertionSort monthLE (es.map monthKey).dedup) :=
    List.sorted_insertionSort monthLE _
  have hnodup : (List.insertionSort monthLE (es.map monthKey).dedup).Nodup :=
    hperm.nodup_iff.2 (List.nodup_dedup _)
  refine ⟨?_, ?_, ?_, ?_⟩
  · intro h0
    rw [monthlyTrend, List.map_eq_nil_iff] at h0
    have hd : (es.map monthKey).dedup = [] := by
      rw [h0] at hperm
      exact hperm.symm.eq_nil
    rw [List.dedup_eq_nil, List.map_eq_nil_iff] at hd
    exact h hd
  · rw [monthlyTrend, List.pairwise_map]
    have hcomb := hsorted.and hnodup
    refine hcomb.imp ?_
    rintro a b ⟨hle, hne⟩
    rcases hle with h1 | ⟨h1, h2⟩
    · exact Or.inl h1
    · exact Or.inr ⟨h1, lt_of_le_of_ne h2 fun h3 => hne (Prod.ext h1 h3)⟩
  · intro k
    have hmm : k ∈ (monthlyTrend es).map Prod.fst ↔
        k ∈ List.insertionSort monthLE (es.map monthKey).dedup := by
      rw [monthlyTrend, List.map_map]
      constructor
      · intro hk
        obtain ⟨a, ha, hfa⟩ := List.mem_map.1 hk
        have hak : a = k := hfa
        exact hak ▸ ha
      · intro hk
        exact List.mem_map.2 ⟨k, hk, rfl⟩
    rw [hmm, hperm.mem_iff, List.mem_dedup]
  · intro p hp
    rw [monthlyTrend] at hp
    obtain ⟨a, -, rfl⟩ := List.mem_map.1 hp
    rfl

/-- A single demo expense used to instantiate the aggregation
theorems. -/
def c7Demo : ExpenseRow := ⟨1, "alice", ⟨2024, 1, 5⟩, "Food", 100, "lunch"⟩

/-- C6 witness: the aggregation theorem instantiated at a one-expense
list, whose trend is the single row for 2024-01 summing to 100. -/
theorem monthlyTrend_spec_witness :
    monthlyTrend [c7Demo] ≠ [] ∧
    (monthlyTrend [c7Demo]).map Prod.fst = [(2024, 1)] :=
  ⟨(monthlyTrend_spec [c7Demo] (by decide)).1, by decide⟩

/-! ## C7 — empty dashboard -/

/-- C7: the dashboard renders the distinguished no-data view exactly on
the empty expense list — a value different from every report, including
reports whose rows are all zero — and any non-empty list yields the
report with the two aggregations and the grand total. -/
theorem dashboard_empty_spec :
    dashboard [] = DashboardView.noData ∧
    (∀ (bc : List (String × ℚ)) (bm : List ((Nat × Nat) × ℚ)) (t : ℚ),
      DashboardView.noData ≠ DashboardView.report bc bm t) ∧
    ∀ es : List ExpenseRow, es ≠ [] →
      dashboard es
        = DashboardView.report (categoryTotals es) (monthlyTrend es)
            ((es.map ExpenseRow.amount).sum) := by
  refine ⟨rfl, ?_, ?_⟩
  · intro bc bm t hcontra
    exact absurd hcontra (by simp)
  · intro es hes
    have hne : es.isEmpty = false := by simp [List.isEmpty_iff, hes]
    simp [dashboard, hne]

/-- C7 witness: the one-expense dashboard is a report, not the no-data
view. -/
theorem dashboard_empty_spec_witness :
    dashboard [c7Demo]
      = DashboardView.report (categoryTotals [c7Demo]) (monthlyTrend [c7Demo])
          (([c7Demo].map ExpenseRow.amount).sum) :=
  dashboard_empty_spec.2.2 [c7Demo] (by decide)

end FinWise
